import Mathlib

/-!
Verification of the `glog` asynchronous logging pipeline.

The development shallowly embeds the two Python modules of the repository:

* `src/g_log.py` — namespace `GLog`: the multiprocessing `LogWorker`
  (queue-draining loop, per-level `MemoryHandler`-over-`RotatingFileHandler`
  sinks, the `custom_namer` backup-name prober, `doRollover` of the stdlib
  `RotatingFileHandler` specialised to that namer) and the producer-side
  `Glogger` (`log`, `stop_logging`).
* `src/glog/glog.py` — namespace `GlogPkg`: `GLogger.direct_log_message`,
  `GLogger.enqueue_log_message`, the Telegram alert dispatch condition and
  `CustomTimedRotatingFileHandler.cleanup_old_logs` retention sweep.

Machine integers are modelled as `Nat`; timestamps as whole seconds with
`dateOf ts = ts / 86400` standing for `datetime.fromtimestamp(ts).date()`
(the claims below only ever compare dates for equality, so any injective
day-keying is faithful).  File systems are lists of path strings, files are
lists of written records.
-/

/-! ### Decimal rendering of naturals (Python `str(num)` / f-string).

Defined from scratch so that every use kernel-reduces and so that we can
prove injectivity via an explicit parse-back round trip. -/

def digitChar (d : Nat) : Char := Char.ofNat (48 + d % 10)

/-- Digit list of `n`, structurally recursive on a fuel argument so that
every concrete use reduces inside the kernel.  With fuel `n` the fallback
first branch is never reached (proved via the round trip below). -/
def natDigitsGo : Nat → Nat → List Char
  | 0, n => [digitChar n]
  | fuel + 1, n =>
    if n < 10 then [digitChar n]
    else natDigitsGo fuel (n / 10) ++ [digitChar (n % 10)]

def natDigits (n : Nat) : List Char := natDigitsGo n n

def natStr (n : Nat) : String := ⟨natDigits n⟩

/-- Parse a digit list back to a number (big-endian fold). -/
def charsVal (cs : List Char) : Nat :=
  cs.foldl (fun acc c => acc * 10 + (c.toNat - 48)) 0

theorem digitChar_toNat {d : Nat} (h : d < 10) : (digitChar d).toNat = 48 + d := by
  interval_cases d <;> decide

theorem charsVal_append_singleton (cs : List Char) (c : Char) :
    charsVal (cs ++ [c]) = charsVal cs * 10 + (c.toNat - 48) := by
  simp [charsVal]

theorem charsVal_natDigitsGo (fuel : Nat) :
    ∀ n, n < 10 ^ (fuel + 1) → charsVal (natDigitsGo fuel n) = n := by
  induction fuel with
  | zero =>
    intro n h
    have h' : n < 10 := by simpa using h
    simp [natDigitsGo, charsVal, digitChar_toNat h']
  | succ fuel ih =>
    intro n h
    rw [natDigitsGo]
    by_cases h10 : n < 10
    · simp [h10, charsVal, digitChar_toNat h10]
    · have hdiv : n / 10 < 10 ^ (fuel + 1) := by
        have hmul : n / 10 * 10 ≤ n := Nat.div_mul_le_self n 10
        rw [pow_succ] at h
        omega
      simp only [h10, if_false]
      rw [charsVal_append_singleton, ih (n / 10) hdiv,
        digitChar_toNat (Nat.mod_lt n (by omega))]
      omega

theorem charsVal_natDigits (n : Nat) : charsVal (natDigits n) = n := by
  have hn : n < 10 ^ (n + 1) :=
    lt_of_lt_of_le (Nat.lt_pow_self (by omega) n) (Nat.pow_le_pow_right (by omega) (by omega))
  exact charsVal_natDigitsGo n n hn

theorem natDigits_injective : Function.Injective natDigits := by
  intro a b h
  have ha := charsVal_natDigits a
  have hb := charsVal_natDigits b
  rw [h] at ha
  omega

theorem natStr_injective : Function.Injective natStr := by
  intro a b h
  exact natDigits_injective (congrArg String.data h)

theorem natDigitsGo_ne_nil (fuel n : Nat) : natDigitsGo fuel n ≠ [] := by
  cases fuel with
  | zero => simp [natDigitsGo]
  | succ fuel => rw [natDigitsGo]; by_cases h : n < 10 <;> simp [h]

theorem natDigits_ne_nil (n : Nat) : natDigits n ≠ [] := natDigitsGo_ne_nil n n

namespace GLog

/-! ### `src/g_log.py` — data model of the worker.

A queue message (`log_data` dict built by `Glogger.log`) always carries the
three keys `timestamp`, `level`, `message`. -/

structure LogData where
  level : String
  message : String
  timestamp : Nat
  deriving DecidableEq, Repr

/-- `LogWorker.VALID_LOG_LEVELS` (a Python set; modelled as the list in
declaration order — only membership is ever used). -/
def VALID_LOG_LEVELS : List String := ["DEBUG", "INFO", "WARNING", "ERROR", "CRITICAL"]

/-- `getattr(logging, level, logging.INFO)` restricted to the names that can
reach it: the five stdlib numeric severities, default `INFO = 20`. -/
def levelValue : String → Nat
  | "DEBUG" => 10
  | "INFO" => 20
  | "WARNING" => 30
  | "ERROR" => 40
  | "CRITICAL" => 50
  | _ => 20

/-- A `logging.LogRecord` as far as the pipeline consults it. -/
structure Rcd where
  levelno : Nat
  message : String
  created : Nat
  deriving DecidableEq, Repr

/-- One `MemoryHandler(capacity=500, target=RotatingFileHandler)` sink as set
up by `LogWorker.setup_log_handler`; the target file is keyed by the shared
level both handlers carry. -/
structure MemHandler where
  level : Nat
  buffer : List Rcd
  deriving DecidableEq, Repr

/-- `MemoryHandler` default `flushLevel` is `logging.ERROR = 40`. -/
def FLUSH_LEVEL : Nat := 40

/-- `buffer_capacity=500` in `setup_log_handler`. -/
def MEM_CAPACITY : Nat := 500

/-- `datetime.fromtimestamp(ts).date()` — day key of a timestamp. -/
def dateOf (ts : Nat) : Nat := ts / 86400

/-- The five handlers installed by `initialize_logger`, in insertion order
DEBUG, INFO, WARNING, ERROR, CRITICAL, each with an empty buffer. -/
def freshHandlers : List MemHandler :=
  [⟨10, []⟩, ⟨20, []⟩, ⟨30, []⟩, ⟨40, []⟩, ⟨50, []⟩]

/-- Worker-owned state: the live handlers, the append-only file contents
(`writes` tags each emitted record with the level of the sink file it went
to), and `self.current_date`. -/
structure WorkerState where
  handlers : List MemHandler
  writes : List (Nat × Rcd)
  currentDate : Nat
  deriving DecidableEq, Repr

def initState (d : Nat) : WorkerState := ⟨freshHandlers, [], d⟩

/-- `RotatingFileHandler.emit` via `Handler.handle` as called from
`MemoryHandler.flush`: no level test happens on this path (level tests live
only in `Logger.callHandlers`), the record is appended to the sink file. -/
def rfhEmit (lvl : Nat) (r : Rcd) (w : List (Nat × Rcd)) : List (Nat × Rcd) :=
  w ++ [(lvl, r)]

/-- `MemoryHandler.emit` (`BufferingHandler.emit`): append to the buffer,
then flush to the target iff `len(buffer) >= capacity or levelno >=
flushLevel`; `flush` empties the buffer after forwarding every record. -/
def memEmit (h : MemHandler) (r : Rcd) (w : List (Nat × Rcd)) :
    MemHandler × List (Nat × Rcd) :=
  let buf := h.buffer ++ [r]
  if MEM_CAPACITY ≤ buf.length ∨ FLUSH_LEVEL ≤ r.levelno then
    (⟨h.level, []⟩, buf.foldl (fun w rr => rfhEmit h.level rr w) w)
  else
    (⟨h.level, buf⟩, w)

/-- `Logger.callHandlers`: each installed handler whose level is at most the
record's `levelno` handles the record, in installation order. -/
def callHandlers (r : Rcd) : List MemHandler → List (Nat × Rcd) →
    List MemHandler × List (Nat × Rcd)
  | [], w => ([], w)
  | h :: hs, w =>
    if h.level ≤ r.levelno then
      let p := memEmit h r w
      let q := callHandlers r hs p.2
      (p.1 :: q.1, q.2)
    else
      let q := callHandlers r hs w
      (h :: q.1, q.2)

/-- `self.logger.handle(record)` — the logger has no filters and `handle`
does not consult the logger's own level, so this is `callHandlers`. -/
def handleRecord (s : WorkerState) (r : Rcd) : WorkerState :=
  let p := callHandlers r s.handlers s.writes
  ⟨p.1, p.2, s.currentDate⟩

/-- `LogWorker.process_log_data`: on a date change, `rollover()` (a no-op:
no installed handler is a `RotatingFileHandler` instance, they are all
`MemoryHandler`s) then `initialize_logger()` (fresh empty handlers, dropping
buffered records) and the tracked date is updated; then a valid level builds
a `LogRecord` and hands it to the logger, an invalid one raises
`ValueError`. -/
def process_log_data (s : WorkerState) (d : LogData) : Except String WorkerState :=
  let s :=
    if dateOf d.timestamp == s.currentDate then s
    else ⟨freshHandlers, s.writes, dateOf d.timestamp⟩
  if VALID_LOG_LEVELS.contains d.level then
    .ok (handleRecord s ⟨levelValue d.level, d.message, d.timestamp⟩)
  else
    .error ("Invalid log level " ++ d.level)

/-- Outcome of `LogWorker.run`.  `finished s bySentinel` is a normal exit of
the `while` loop (`bySentinel = false` means the liveness check broke the
loop); `blocked s` means the worker is stuck forever inside
`log_queue.get()` — the call has no timeout and no further item ever
arrives; `crashed s msg` is an uncaught exception escaping `run`. -/
inductive RunResult where
  | finished (s : WorkerState) (bySentinel : Bool)
  | blocked (s : WorkerState)
  | crashed (s : WorkerState) (msg : String)
  deriving DecidableEq, Repr

/-- `LogWorker.run`: per iteration `i`, check `is_parent_alive` and break if
dead, then block on `log_queue.get()`.  `q` is the whole future of the
channel: `none` is the `None` shutdown sentinel, and an exhausted `q` means
no item ever arrives again, so the parameterless `get()` never returns (its
`except Empty` handler is unreachable).  An exception from
`process_log_data` is not caught (only `Empty` is) and kills the loop. -/
def runLoop (alive : Nat → Bool) :
    List (Option LogData) → Nat → WorkerState → RunResult
  | [], i, s => if alive i then .blocked s else .finished s false
  | none :: _, i, s => if alive i then .finished s true else .finished s false
  | some d :: rest, i, s =>
    if alive i then
      match process_log_data s d with
      | .ok s' => runLoop alive rest (i + 1) s'
      | .error e => .crashed s e
    else .finished s false

/-- The sink-file contents carried by a run outcome. -/
def resultWrites : RunResult → List (Nat × Rcd)
  | .finished s _ => s.writes
  | .blocked s => s.writes
  | .crashed s _ => s.writes

/-- Sequential processing of a batch of records (the worker's effect on its
state over a queue prefix). -/
def processAll (s : WorkerState) : List LogData → Except String WorkerState
  | [] => .ok s
  | d :: rest =>
    match process_log_data s d with
    | .ok s' => processAll s' rest
    | .error e => .error e

/-! `Glogger` producer side. -/

/-- `Queue.put_nowait` on a queue with capacity `cap`: `none` models the
`Full` exception. -/
def put_nowait (cap : Nat) (q : List LogData) (x : LogData) : Option (List LogData) :=
  if q.length < cap then some (q ++ [x]) else none

/-- `Glogger.log`: build the `log_data` dict and `put_nowait` it, swallowing
`Full` (`except Full: pass`), so the producer always returns at once with
the (possibly unchanged) channel. -/
def glogger_log (cap : Nat) (q : List LogData) (level message : String)
    (ts : Nat) : List LogData :=
  match put_nowait cap q ⟨level, message, ts⟩ with
  | some q' => q'
  | none => q

/-! ### `LogWorker.custom_namer` and `RotatingFileHandler.doRollover`.

The on-disk directory is modelled as the list `fs` of existing path
strings (`os.path.exists name` is `fs.contains name`). -/

/-- Index of the last occurrence of `c` in `cs` (`str.rfind`). -/
def lastIdxOf (c : Char) (cs : List Char) : Option Nat :=
  (List.range cs.length).foldl
    (fun acc i => if cs.getD i ' ' = c then some i else acc) none

/-- `str.rstrip(sep)` for the single char `'/'`. -/
def dropTrailingSlashes (cs : List Char) : List Char :=
  (cs.reverse.dropWhile (fun c => c = '/')).reverse

/-- `os.path.split` (posixpath): head is everything up to the final `'/'`
with trailing slashes stripped unless the head is all slashes; the tail is
the final component. -/
def osSplit (p : String) : String × String :=
  match lastIdxOf '/' p.data with
  | none => ("", p)
  | some i =>
    let head := p.data.take (i + 1)
    let tail := p.data.drop (i + 1)
    let head' := if head.all (fun c => c = '/') then head else dropTrailingSlashes head
    (⟨head'⟩, ⟨tail⟩)

/-- `os.path.splitext`: split at the final dot provided it lies inside the
basename and at least one non-dot character of the basename precedes it. -/
def splitext (p : String) : String × String :=
  let cs := p.data
  let base : Nat := match lastIdxOf '/' cs with | none => 0 | some i => i + 1
  match lastIdxOf '.' cs with
  | none => (p, "")
  | some d =>
    if base ≤ d then
      if ((cs.drop base).take (d - base)).all (fun c => c = '.') then (p, "")
      else (⟨cs.take d⟩, ⟨cs.drop d⟩)
    else (p, "")

/-- `str.replace(".txt", "")`: drop every non-overlapping occurrence of
`".txt"`, scanning left to right. -/
def removeTxt : List Char → List Char
  | '.' :: 't' :: 'x' :: 't' :: rest => removeTxt rest
  | c :: rest => c :: removeTxt rest
  | [] => []

/-- `os.path.join` (posixpath, two components). -/
def osJoin (a b : String) : String :=
  if b.data.head? = some '/' then b
  else if a.data = [] ∨ a.data.getLast? = some '/' then a ++ b
  else a ++ "/" ++ b

/-- `os.path.join(dir_name, f"{file_root}{num}.txt")` — the candidate name
probed for suffix `num`. -/
def backup_name (dir_name file_root : String) (num : Nat) : String :=
  osJoin dir_name (file_root ++ natStr num ++ ".txt")

/-- The `while os.path.exists(new_name)` probe of `custom_namer`.  The
source loop is unbounded; here it carries fuel, and `|fs| + 1` fuel is
proved sufficient to reach a name not in `fs` (`probeLoop_spec`), so the
fuelled loop computes the same name the unbounded one does. -/
def probeLoop (fs : List String) (dir_name file_root : String) :
    Nat → Nat → String
  | 0, num => backup_name dir_name file_root num
  | fuel + 1, num =>
    let new_name := backup_name dir_name file_root num
    if fs.contains new_name then probeLoop fs dir_name file_root fuel (num + 1)
    else new_name

/-- Directory part of `default_name` as `custom_namer` computes it. -/
def namer_dir (default_name : String) : String := (osSplit default_name).1

/-- `file_root` as `custom_namer` computes it: basename, extension split
off, every `".txt"` occurrence removed. -/
def namer_root (default_name : String) : String :=
  ⟨removeTxt (splitext (osSplit default_name).2).1.data⟩

/-- `LogWorker.custom_namer` against the directory contents `fs`. -/
def custom_namer (fs : List String) (default_name : String) : String :=
  probeLoop fs (namer_dir default_name) (namer_root default_name)
    (fs.length + 1) 1

/-- Backup names produced by `N` consecutive rotations: each rotation asks
`custom_namer` for a fresh name and the returned file then exists. -/
def genBackups (fs : List String) (default_name : String) : Nat → List String
  | 0 => []
  | n + 1 =>
    let nm := custom_namer fs default_name
    nm :: genBackups (nm :: fs) default_name n

/-- One iteration of the backup-shifting loop of
`RotatingFileHandler.doRollover` (`sfn`/`dfn` pass through
`rotation_filename`, i.e. through `custom_namer`). -/
def shiftStep (base : String) (fs : List String) (i : Nat) : List String :=
  let sfn := custom_namer fs (base ++ "." ++ natStr i)
  let dfn := custom_namer fs (base ++ "." ++ natStr (i + 1))
  if fs.contains sfn then ((fs.erase dfn).erase sfn) ++ [dfn] else fs

/-- `RotatingFileHandler.doRollover` with `self.namer = custom_namer`:
shift loop for `i = backupCount-1 … 1`, then compute `dfn` for suffix `.1`,
remove it if it exists, rename the base file to `dfn` and reopen a fresh
base file (`delay=False`). -/
def doRollover (backupCount : Nat) (base : String) (fs : List String) :
    List String :=
  if 0 < backupCount then
    let fs1 := ((List.range' 1 (backupCount - 1)).reverse).foldl (shiftStep base) fs
    let dfn := custom_namer fs1 (base ++ ".1")
    let fs2 := if fs1.contains dfn then fs1.erase dfn else fs1
    (fs2.erase base) ++ [dfn, base]
  else fs

/-- `N` consecutive rollovers of one sink. -/
def rollovers (backupCount : Nat) (base : String) (fs : List String) :
    Nat → List String
  | 0 => fs
  | n + 1 => rollovers backupCount base (doRollover backupCount base fs) n

end GLog

namespace GlogPkg

/-! ### `src/glog/glog.py` — `GLogger` and the retention sweep. -/

/-- `GLogger.LOG_LEVELS` (the five stdlib numeric severities). -/
def LOG_LEVELS : List Nat := [10, 20, 30, 40, 50]

/-- Observable `GLogger` state: configuration flags plus the event logs of
each effect channel.  `fileWrites` are appends through a level's
`CustomTimedRotatingFileHandler`, `consoleWrites` through its
`StreamHandler`, `alertCalls` are invocations of `send_telegram_alert`,
and `queue` is the multiprocessing channel fed by `QueueHandler`. -/
structure GState where
  telegram_alert : Bool
  print_logs : Bool
  fileWrites : List (Nat × String)
  consoleWrites : List (Nat × String)
  alertCalls : List (Nat × String)
  queue : List (Nat × String)
  deriving DecidableEq, Repr

/-- `GLogger.direct_log_message`: `self.loggers.get(level)` hits iff
`level` is one of the five configured keys; then the level's logger (whose
own level and whose file handler's level both equal `level`) writes the
record once to the level file (and once to the console when `print_logs`),
and `send_telegram_alert` is invoked iff `telegram_alert` and
`level >= logging.ERROR`.  Any other `level` makes `logger` `None` and the
whole body is skipped. -/
def direct_log_message (st : GState) (message : String) (level : Nat) : GState :=
  if LOG_LEVELS.contains level then
    let st1 : GState :=
      { st with
        fileWrites := st.fileWrites ++ [(level, message)],
        consoleWrites :=
          if st.print_logs then st.consoleWrites ++ [(level, message)]
          else st.consoleWrites }
    if st1.telegram_alert ∧ 40 ≤ level then
      { st1 with alertCalls := st1.alertCalls ++ [(level, message)] }
    else st1
  else st

/-- `GLogger.enqueue_log_message`: same `loggers.get(level)` guard; a hit
builds a record and `put`s it on the shared queue, then the same alert
condition runs.  A miss is again a silent no-op. -/
def enqueue_log_message (st : GState) (message : String) (level : Nat) : GState :=
  if LOG_LEVELS.contains level then
    let st1 : GState := { st with queue := st.queue ++ [(level, message)] }
    if st1.telegram_alert ∧ 40 ≤ level then
      { st1 with alertCalls := st1.alertCalls ++ [(level, message)] }
    else st1
  else st

/-! #### `CustomTimedRotatingFileHandler.cleanup_old_logs`.

Dates are represented by their proleptic Gregorian ordinal
(`date.toordinal()`); `date_a < date_b` is ordinal comparison and
subtracting `timedelta(days=n)` subtracts `n` from the ordinal. -/

def isDigitCh (c : Char) : Bool := decide ('0' ≤ c) && decide (c ≤ '9')

def digitVal (c : Char) : Nat := c.toNat - 48

/-- `str.isdigit()` (ASCII fragment — directory names come from
`strftime`). -/
def isdigitStr (s : String) : Bool := !s.data.isEmpty && s.data.all isDigitCh

/-- ASCII lowering, for `strptime`'s case-insensitive `%B` matching. -/
def lowerChar (c : Char) : Char :=
  if 'A' ≤ c ∧ c ≤ 'Z' then Char.ofNat (c.toNat + 32) else c

def lowerEq (a b : String) : Bool := a.data.map lowerChar == b.data.map lowerChar

def monthNames : List String :=
  ["January", "February", "March", "April", "May", "June",
   "July", "August", "September", "October", "November", "December"]

/-- `%B`: a full month name, case-insensitively. -/
def parseMonth (s : String) : Option Nat :=
  match monthNames.findIdx? (fun m => lowerEq s m) with
  | some i => some (i + 1)
  | none => none

/-- `%Y`: exactly four digits; `datetime` then requires `year >= 1`. -/
def parseYear (s : String) : Option Nat :=
  match s.data with
  | [a, b, c, d] =>
    if isDigitCh a && isDigitCh b && isDigitCh c && isDigitCh d then
      let y := charsVal [a, b, c, d]
      if 1 ≤ y then some y else none
    else none
  | _ => none

/-- `%d`: `strptime`'s day pattern `3[01] | [12][0-9] | 0[1-9] | [1-9]`,
one or two digits, value 1–31. -/
def parseDay (s : String) : Option Nat :=
  match s.data with
  | [c] => if '1' ≤ c ∧ c ≤ '9' then some (digitVal c) else none
  | [c1, c2] =>
    if c1 = '3' ∧ (c2 = '0' ∨ c2 = '1') then some (30 + digitVal c2)
    else if (c1 = '1' ∨ c1 = '2') ∧ isDigitCh c2 then
      some (digitVal c1 * 10 + digitVal c2)
    else if c1 = '0' ∧ '1' ≤ c2 ∧ c2 ≤ '9' then some (digitVal c2)
    else none
  | _ => none

def isLeapYear (y : Nat) : Bool :=
  y % 4 == 0 && (!(y % 100 == 0) || y % 400 == 0)

def daysInMonth (y m : Nat) : Nat :=
  if m = 2 then (if isLeapYear y then 29 else 28)
  else if m = 4 ∨ m = 6 ∨ m = 9 ∨ m = 11 then 30
  else 31

def daysBeforeMonth (y m : Nat) : Nat :=
  [0, 31, 59, 90, 120, 151, 181, 212, 243, 273, 304, 334].getD (m - 1) 0 +
    (if 2 < m ∧ isLeapYear y then 1 else 0)

/-- `date(y, m, d).toordinal()`. -/
def toOrdinal (y m d : Nat) : Nat :=
  365 * (y - 1) + (y - 1) / 4 - (y - 1) / 100 + (y - 1) / 400 +
    daysBeforeMonth y m + d

/-- `datetime.strptime(f"{y}-{m}-{d}", "%Y-%B-%d").date().toordinal()`:
`None` models the `ValueError` of an unparsable name or an invalid
calendar date (e.g. February 30). -/
def strptime_Y_B_d (yS mS dS : String) : Option Nat :=
  match parseYear yS, parseMonth mS, parseDay dS with
  | some y, some m, some d =>
    if d ≤ daysInMonth y m then some (toOrdinal y m d) else none
  | _, _, _ => none

/-- The body of the innermost loop: delete the day directory iff its name
parses to a valid date and `dir_date < cutoff_date`. -/
def shouldDelete (cutoff : Nat) (yS mS dS : String) : Bool :=
  match strptime_Y_B_d yS mS dS with
  | some dirOrd => decide (dirOrd < cutoff)
  | none => false

/-- A `Logs/<year>/<month>` directory and its day subdirectories. -/
structure MonthDir where
  name : String
  days : List String
  deriving DecidableEq, Repr

/-- A `Logs/<year>` directory and its month subdirectories. -/
structure YearDir where
  name : String
  months : List MonthDir
  deriving DecidableEq, Repr

/-- Day loop plus the `os.rmdir(day_path)` / empty-month cascade: the
month directory disappears exactly when it had day directories and every
one of them was deleted. -/
def cleanupMonth (cutoff : Nat) (yS : String) (m : MonthDir) : Option MonthDir :=
  let days' := m.days.filter (fun d => !(shouldDelete cutoff yS m.name d))
  if !m.days.isEmpty && days'.isEmpty then none else some ⟨m.name, days'⟩

/-- Year loop: a year directory whose name fails `isdigit()` is skipped
wholesale; otherwise the empty-year cascade mirrors the month one. -/
def cleanupYear (cutoff : Nat) (y : YearDir) : Option YearDir :=
  if !(isdigitStr y.name) then some y
  else
    let ms := y.months.filterMap (cleanupMonth cutoff y.name)
    if !y.months.isEmpty && ms.isEmpty then none else some ⟨y.name, ms⟩

/-- `cleanup_old_logs`, with `cutoff_date = datetime.now().date() -
timedelta(days=log_retention_days)` passed as `toOrdinal today -
retention` (for a retention window reaching past `date.min`, where Python
raises before touching the tree, the truncated-to-zero cutoff likewise
deletes nothing). -/
def cleanup_old_logs (todayOrd retention : Nat) (years : List YearDir) :
    List YearDir :=
  years.filterMap (cleanupYear (todayOrd - retention))

/-- All `(year, month, day)` partition directories of the tree. -/
def dayTriples (years : List YearDir) : List (String × String × String) :=
  years.flatMap fun y => y.months.flatMap fun m =>
    m.days.map fun d => (y.name, m.name, d)

end GlogPkg

/-! ## Claim theorems -/

section ClaimC9

open GLog

/-- C9: `Glogger.log` is a total function of the channel state — it never
blocks and never raises (`put_nowait`'s `Full` is caught with `pass`) —
and on a channel at capacity it leaves the channel unchanged, silently
dropping the record. -/
theorem c9_log_drop_on_full (cap : Nat) (q : List LogData)
    (level message : String) (ts : Nat) (h : cap ≤ q.length) :
    glogger_log cap q level message ts = q := by
  simp [glogger_log, put_nowait, Nat.not_lt.2 h]

/-- Witness for C9 at a concrete full channel of capacity 1. -/
theorem c9_log_drop_on_full_witness :
    glogger_log 1 [⟨"DEBUG", "m", 0⟩] "INFO" "n" 3 = [⟨"DEBUG", "m", 0⟩] :=
  c9_log_drop_on_full 1 [⟨"DEBUG", "m", 0⟩] "INFO" "n" 3 (by decide)

end ClaimC9

section ClaimC10

open GlogPkg

/-- C10: `glog(message, level)` — in both its `direct_log_message` and
`enqueue_log_message` incarnations — is a silent no-op for a `level` that
is not one of the five configured keys: `self.loggers.get(level)` is
`None`, so nothing is written, enqueued or alerted and no error is
raised (the call simply returns, the state unchanged). -/
theorem c10_invalid_level_noop (st : GState) (message : String) (level : Nat)
    (h : LOG_LEVELS.contains level = false) :
    direct_log_message st message level = st ∧
      enqueue_log_message st message level = st := by
  have h' : ¬ level ∈ LOG_LEVELS := by simpa using h
  constructor <;> simp [direct_log_message, enqueue_log_message, h']

/-- Witness for C10 at level 45 (not a configured key). -/
theorem c10_invalid_level_noop_witness :
    direct_log_message ⟨true, true, [], [], [], []⟩ "hello" 45 =
        ⟨true, true, [], [], [], []⟩ ∧
      enqueue_log_message ⟨true, true, [], [], [], []⟩ "hello" 45 =
        ⟨true, true, [], [], [], []⟩ :=
  c10_invalid_level_noop ⟨true, true, [], [], [], []⟩ "hello" 45 (by decide)

end ClaimC10

section ClaimC8

open GlogPkg

/-- C8: with Telegram alerting configured (the code's alert threshold is
the hard-wired `level >= logging.ERROR`), a `direct_log_message` call for
a configured level invokes `send_telegram_alert` exactly once when the
level is at or above ERROR (40) and not at all when it is below. -/
theorem c8_alert_threshold (st : GState) (message : String) (level : Nat)
    (htg : st.telegram_alert = true) (hl : LOG_LEVELS.contains level = true) :
    (direct_log_message st message level).alertCalls =
      if 40 ≤ level then st.alertCalls ++ [(level, message)]
      else st.alertCalls := by
  simp only [direct_log_message, hl, if_true]
  split_ifs with h1 h2 h2 <;> simp_all

/-- Witness for C8: threshold scenario — one INFO then one CRITICAL record
on a fresh alert-enabled logger dispatches exactly one alert, for the
CRITICAL record only. -/
theorem c8_alert_threshold_witness :
    (direct_log_message
        (direct_log_message ⟨true, false, [], [], [], []⟩ "info-msg" 20)
        "crit-msg" 50).alertCalls = [(50, "crit-msg")] := by
  have h := c8_alert_threshold
    (direct_log_message ⟨true, false, [], [], [], []⟩ "info-msg" 20)
    "crit-msg" 50 (by decide) (by decide)
  rw [h]
  decide

end ClaimC8

section ClaimC2C4

open GLog

/-- C2 (amended): a dequeued record whose level is not in
`VALID_LOG_LEVELS` makes `process_log_data` raise `ValueError`; the `run`
loop catches only `queue.Empty`, so the exception escapes and the loop
terminates at once — any records still queued behind the bad one are
never processed. -/
theorem c2_invalid_level_kills_loop (alive : Nat → Bool) (i : Nat)
    (s : WorkerState) (d : LogData) (rest : List (Option LogData))
    (ha : alive i = true)
    (hl : VALID_LOG_LEVELS.contains d.level = false) :
    runLoop alive (some d :: rest) i s =
      .crashed s ("Invalid log level " ++ d.level) := by
  have hl' : ¬ d.level ∈ VALID_LOG_LEVELS := by simpa using hl
  simp [runLoop, ha, process_log_data, hl']

/-- Witness for C2's amended statement at a concrete bad record. -/
theorem c2_invalid_level_kills_loop_witness :
    runLoop (fun _ => true) [some ⟨"VERBOSE", "z", 86400⟩, none] 0
        (initState 1) =
      .crashed (initState 1) "Invalid log level VERBOSE" :=
  c2_invalid_level_kills_loop (fun _ => true) 0 (initState 1)
    ⟨"VERBOSE", "z", 86400⟩ [none] rfl (by decide)

/-- C2 counterexample: the claim says the Writer loop never terminates
because of a single bad record and keeps processing subsequent records;
but with one invalid record at the head of the channel and a valid DEBUG
record plus the sentinel behind it, the loop dies on the uncaught
`ValueError` (`crashed`, not a normal `finished` exit) with the later
record unprocessed. -/
theorem c2_invalid_level_counterexample :
    runLoop (fun _ => true)
        [some ⟨"TRACE", "x", 0⟩, some ⟨"DEBUG", "y", 0⟩, none] 0
        (initState 0) =
      .crashed (initState 0) "Invalid log level TRACE" := by
  decide

/-- C4: the claim says the dequeue blocks only with a short timeout so
that producer liveness is polled once per loop iteration even on an idle
channel.  In the code `log_queue.get()` has no timeout (the
`except Empty` handler is unreachable), so a Writer that is blocked on an
empty channel when its producer dies never reaches the next
`is_parent_alive` poll: here the producer is alive at iteration 0 and
dead from iteration 1 on, no item ever arrives, and the run is `blocked`
forever instead of transitioning to Draining. -/
theorem c4_idle_channel_never_detects_death :
    runLoop (fun i => i == 0) [] 0 (initState 0) = .blocked (initState 0) := by
  decide

end ClaimC2C4

section ClaimC3

open GLog

theorem handleRecord_currentDate (s : WorkerState) (r : Rcd) :
    (handleRecord s r).currentDate = s.currentDate := rfl

/-- `process_log_data` on a valid-level record whose date matches the
tracked date: no rollover, the record is handed to the handlers. -/
theorem process_log_data_valid (s : WorkerState) (d : LogData)
    (hl : VALID_LOG_LEVELS.contains d.level = true)
    (hd : dateOf d.timestamp = s.currentDate) :
    process_log_data s d =
      .ok (handleRecord s ⟨levelValue d.level, d.message, d.timestamp⟩) := by
  have hl' : d.level ∈ VALID_LOG_LEVELS := by simpa using hl
  simp [process_log_data, hd, hl']

/-- Draining: with a live producer, a queue holding same-day valid records
and then the sentinel is consumed record by record and the loop exits via
the sentinel with exactly the state left by processing — nothing more. -/
theorem runLoop_drain (alive : Nat → Bool) (ha : ∀ i, alive i = true)
    (d0 : Nat) :
    ∀ ds : List LogData,
      (∀ d ∈ ds, VALID_LOG_LEVELS.contains d.level = true ∧
        dateOf d.timestamp = d0) →
      ∀ (i : Nat) (s : WorkerState), s.currentDate = d0 →
        ∃ s', processAll s ds = .ok s' ∧
          runLoop alive (ds.map some ++ [none]) i s = .finished s' true := by
  intro ds
  induction ds with
  | nil =>
    intro _ i s _
    exact ⟨s, rfl, by simp [runLoop, ha i]⟩
  | cons d rest ih =>
    intro hv i s hs
    obtain ⟨hl, hd⟩ := hv d (List.mem_cons_self d rest)
    have hp := process_log_data_valid s d hl (by rw [hd, hs])
    have hs1 : (handleRecord s
        ⟨levelValue d.level, d.message, d.timestamp⟩).currentDate = d0 := by
      rw [handleRecord_currentDate, hs]
    obtain ⟨s', h1, h2⟩ :=
      ih (fun x hx => hv x (List.mem_cons_of_mem d hx)) (i + 1) _ hs1
    refine ⟨s', ?_, ?_⟩
    · simp [processAll, hp, h1]
    · simp [runLoop, ha i, hp, h2]

/-- C3 (amended): after `stop_logging` enqueues the sentinel, the Writer
dequeues and handles every record enqueued before the sentinel (the
channel is fully drained, nothing in it is discarded) and then exits —
but the exit performs no flush and no close: the final state is exactly
the per-record processing fold, so records parked in a `MemoryHandler`
buffer (fewer than 500 buffered, none of level ≥ ERROR since the last
flush) are still not in the sink file when `stop()` returns, and no
handler was closed. -/
theorem c3_stop_drains_without_final_flush (alive : Nat → Bool)
    (d0 : Nat) (ds : List LogData) (ha : ∀ i, alive i = true)
    (hv : ∀ d ∈ ds, VALID_LOG_LEVELS.contains d.level = true ∧
      dateOf d.timestamp = d0) :
    ∃ s', processAll (initState d0) ds = .ok s' ∧
      runLoop alive (ds.map some ++ [none]) 0 (initState d0) =
        .finished s' true :=
  runLoop_drain alive ha d0 ds hv 0 (initState d0) rfl

/-- Witness for C3's amended statement at one concrete DEBUG record. -/
theorem c3_stop_drains_without_final_flush_witness :
    runLoop (fun _ => true) [some ⟨"DEBUG", "a", 0⟩, none] 0 (initState 0) =
      .finished ⟨[⟨10, [⟨10, "a", 0⟩]⟩, ⟨20, []⟩, ⟨30, []⟩, ⟨40, []⟩,
        ⟨50, []⟩], [], 0⟩ true := by
  obtain ⟨s', h1, h2⟩ := c3_stop_drains_without_final_flush
    (fun _ => true) 0 [⟨"DEBUG", "a", 0⟩] (fun _ => rfl) (by decide)
  have heq : Except.ok (ε := String) s' =
      .ok (⟨[⟨10, [⟨10, "a", 0⟩]⟩, ⟨20, []⟩, ⟨30, []⟩, ⟨40, []⟩,
        ⟨50, []⟩], [], 0⟩ : WorkerState) := by
    rw [← h1]; rfl
  rw [← Except.ok.inj heq]
  exact h2

/-- C3 counterexample: one DEBUG record is enqueued before the sentinel;
after the loop exits via the sentinel the record still sits in the DEBUG
handler's memory buffer and the file-write log is empty — the record was
never flushed to its Sink's file and no handle was closed, refuting
"every record enqueued before the sentinel has been flushed to its
Sink's file ... and all file handles are closed". -/
theorem c3_unflushed_buffer_counterexample :
    runLoop (fun _ => true) [some ⟨"DEBUG", "first row", 86400⟩, none] 0
        (initState 1) =
      .finished ⟨[⟨10, [⟨10, "first row", 86400⟩]⟩, ⟨20, []⟩, ⟨30, []⟩,
        ⟨40, []⟩, ⟨50, []⟩], [], 1⟩ true ∧
    resultWrites (runLoop (fun _ => true)
        [some ⟨"DEBUG", "first row", 86400⟩, none] 0 (initState 1)) = [] := by
  constructor <;> decide

end ClaimC3

section ClaimC1

open GLog

/-- Copies of `r` sitting in the buffer of the sink for level `L`. -/
def bufCount (s : WorkerState) (L : Nat) (r : Rcd) : Nat :=
  (s.handlers.map (fun h => if h.level = L then h.buffer.count r else 0)).sum

/-- Copies of `r` written to the file of the sink for level `L`. -/
def fileCount (s : WorkerState) (L : Nat) (r : Rcd) : Nat :=
  (s.writes.filter (fun e => e == (L, r))).length

/-- Copies of `r` delivered to the sink for level `L`, buffered or
written. -/
def deliveredCount (s : WorkerState) (L : Nat) (r : Rcd) : Nat :=
  bufCount s L r + fileCount s L r

/-- C1 (amended): a valid-level record dequeued by the freshly initialised
Writer is delivered exactly once to the Sink whose level matches — but
also exactly once to every Sink of a *lower* level, because
`Logger.callHandlers` hands the record to each handler with
`handler.level <= record.levelno`; only Sinks of a higher level never see
it.  (Whether a delivered copy is already in the file or still in the
sink's memory buffer depends on the `MemoryHandler` flush rule.) -/
theorem c1_levelwise_fanout (lvl msg : String) (ts d0 : Nat)
    (hl : lvl ∈ VALID_LOG_LEVELS) (hd : dateOf ts = d0) :
    ∃ s', process_log_data (initState d0) ⟨lvl, msg, ts⟩ = .ok s' ∧
      ∀ L ∈ [10, 20, 30, 40, 50],
        deliveredCount s' L ⟨levelValue lvl, msg, ts⟩ =
          if L ≤ levelValue lvl then 1 else 0 := by
  fin_cases hl <;>
    (refine ⟨_, process_log_data_valid (initState d0) _ rfl
        (by simpa using hd), ?_⟩
     intro L hL
     fin_cases hL <;>
       simp [deliveredCount, bufCount, fileCount, handleRecord, callHandlers,
         memEmit, rfhEmit, MEM_CAPACITY, FLUSH_LEVEL, initState, freshHandlers,
         levelValue, List.count_cons])

/-- Witness for C1's amended statement: a WARNING record from day 0. -/
theorem c1_levelwise_fanout_witness :
    process_log_data (initState 0) ⟨"WARNING", "w", 7⟩ =
      .ok ⟨[⟨10, [⟨30, "w", 7⟩]⟩, ⟨20, [⟨30, "w", 7⟩]⟩, ⟨30, [⟨30, "w", 7⟩]⟩,
        ⟨40, []⟩, ⟨50, []⟩], [], 0⟩ ∧
    deliveredCount ⟨[⟨10, [⟨30, "w", 7⟩]⟩, ⟨20, [⟨30, "w", 7⟩]⟩,
        ⟨30, [⟨30, "w", 7⟩]⟩, ⟨40, []⟩, ⟨50, []⟩], [], 0⟩ 30 ⟨30, "w", 7⟩ = 1 := by
  obtain ⟨s', h1, h2⟩ := c1_levelwise_fanout "WARNING" "w" 7 0 (by decide) rfl
  have heq : Except.ok (ε := String) s' =
      .ok (⟨[⟨10, [⟨30, "w", 7⟩]⟩, ⟨20, [⟨30, "w", 7⟩]⟩, ⟨30, [⟨30, "w", 7⟩]⟩,
        ⟨40, []⟩, ⟨50, []⟩], [], 0⟩ : WorkerState) := by
    rw [← h1]; rfl
  have hs' := Except.ok.inj heq
  refine ⟨by rw [h1, hs'], ?_⟩
  have := h2 30 (by decide)
  rw [hs'] at this
  simpa using this

/-- C1 counterexample: a CRITICAL record passes every handler's level test
and, being at `flushLevel`, is flushed straight through — it ends up
written once in *each* of the five level files, in particular in the
DEBUG file, refuting "it never appears in the file of any other severity
level". -/
theorem c1_crosslevel_write_counterexample :
    process_log_data (initState 0) ⟨"CRITICAL", "boom", 5⟩ =
      .ok ⟨freshHandlers,
        [(10, ⟨50, "boom", 5⟩), (20, ⟨50, "boom", 5⟩), (30, ⟨50, "boom", 5⟩),
         (40, ⟨50, "boom", 5⟩), (50, ⟨50, "boom", 5⟩)], 0⟩ ∧
    (10, (⟨50, "boom", 5⟩ : Rcd)) ∈
      ([(10, ⟨50, "boom", 5⟩), (20, ⟨50, "boom", 5⟩), (30, ⟨50, "boom", 5⟩),
        (40, ⟨50, "boom", 5⟩), (50, ⟨50, "boom", 5⟩)] :
          List (Nat × Rcd)) := by
  exact ⟨rfl, by decide⟩

end ClaimC1

section NamerLemmas

open GLog

theorem digitChar_eq_mod (d : Nat) : digitChar d = digitChar (d % 10) := by
  unfold digitChar
  congr 1
  omega

theorem digitChar_ne_slash (d : Nat) : digitChar d ≠ '/' := by
  rw [digitChar_eq_mod]
  have h : d % 10 < 10 := Nat.mod_lt d (by omega)
  set e := d % 10 with he
  interval_cases e <;> decide

theorem natDigitsGo_all_digitChar (fuel : Nat) :
    ∀ n c, c ∈ natDigitsGo fuel n → ∃ d, c = digitChar d := by
  induction fuel with
  | zero =>
    intro n c hc
    simp [natDigitsGo] at hc
    exact ⟨n, hc⟩
  | succ fuel ih =>
    intro n c hc
    rw [natDigitsGo] at hc
    by_cases h : n < 10
    · rw [if_pos h] at hc
      simp at hc
      exact ⟨n, hc⟩
    · rw [if_neg h] at hc
      rcases List.mem_append.1 hc with h1 | h2
      · exact ih (n / 10) c h1
      · simp at h2
        exact ⟨n % 10, h2⟩

theorem natDigits_all_ne_slash (n : Nat) :
    ∀ c ∈ natDigits n, c ≠ '/' := by
  intro c hc
  obtain ⟨d, rfl⟩ := natDigitsGo_all_digitChar n n c hc
  exact digitChar_ne_slash d

/-- The data of the probed candidate `file_root ++ str(num) ++ ".txt"`. -/
theorem probe_suffix_data (root : String) (n : Nat) :
    (root ++ natStr n ++ ".txt").data =
      (root.data ++ natDigits n) ++ ['.', 't', 'x', 't'] := by
  simp [natStr, String.data_append]

theorem probe_suffix_head_of_nil (root : String) (hroot : root.data = [])
    (n : Nat) : ¬ ((root ++ natStr n ++ ".txt").data.head? = some '/') := by
  intro hcontra
  rw [probe_suffix_data, hroot, List.nil_append] at hcontra
  cases hnd : natDigits n with
  | nil => exact natDigits_ne_nil n hnd
  | cons c cs =>
    rw [hnd] at hcontra
    simp at hcontra
    exact natDigits_all_ne_slash n c (hnd ▸ List.mem_cons_self c cs) hcontra

theorem probe_suffix_head_of_cons (root : String) (c : Char)
    (cs : List Char) (hroot : root.data = c :: cs) (n : Nat) :
    (root ++ natStr n ++ ".txt").data.head? = some c := by
  rw [probe_suffix_data, hroot]
  simp

/-- `os.path.join` is injective in its file argument once the two files
agree on whether they are absolute. -/
theorem osJoin_cancel (dir x y : String)
    (hcond : (x.data.head? = some '/') ↔ (y.data.head? = some '/'))
    (h : osJoin dir x = osJoin dir y) : x = y := by
  unfold osJoin at h
  by_cases hx : x.data.head? = some '/'
  · rw [if_pos hx, if_pos (hcond.1 hx)] at h
    exact h
  · rw [if_neg hx, if_neg (fun hy => hx (hcond.2 hy))] at h
    split_ifs at h with hd
    · have hdat := congrArg String.data h
      simp only [String.data_append] at hdat
      exact String.ext (List.append_cancel_left hdat)
    · have hdat := congrArg String.data h
      simp only [String.data_append, List.append_assoc] at hdat
      exact String.ext (List.append_cancel_left (List.append_cancel_left hdat))

theorem backup_name_injective (dir root : String) :
    Function.Injective (backup_name dir root) := by
  intro m n h
  have hsame : ((root ++ natStr m ++ ".txt").data.head? = some '/') ↔
      ((root ++ natStr n ++ ".txt").data.head? = some '/') := by
    cases hroot : root.data with
    | nil =>
      constructor
      · intro hm; exact absurd hm (probe_suffix_head_of_nil root hroot m)
      · intro hn; exact absurd hn (probe_suffix_head_of_nil root hroot n)
    | cons c cs =>
      rw [probe_suffix_head_of_cons root c cs hroot m,
        probe_suffix_head_of_cons root c cs hroot n]
  have hb := osJoin_cancel dir _ _ hsame h
  have hdat := congrArg String.data hb
  rw [probe_suffix_data, probe_suffix_data] at hdat
  have h2 := List.append_cancel_right hdat
  have h3 := List.append_cancel_left h2
  exact natDigits_injective h3

/-- Among `|fs| + 1` consecutive suffixes there is one whose probed name is
not an existing file (pigeonhole via injectivity of the naming). -/
theorem exists_fresh_suffix (fs : List String) (dir root : String) :
    ∃ k, 1 ≤ k ∧ k ≤ fs.length + 1 ∧ backup_name dir root k ∉ fs := by
  by_contra hcon
  push_neg at hcon
  have hinj : Function.Injective (fun i : Nat => backup_name dir root (i + 1)) := by
    intro a b hab
    have := backup_name_injective dir root hab
    omega
  have hnodup : ((List.range (fs.length + 1)).map
      (fun i => backup_name dir root (i + 1))).Nodup :=
    (List.nodup_range _).map hinj
  have hsub : ((List.range (fs.length + 1)).map
      (fun i => backup_name dir root (i + 1))).toFinset ⊆ fs.toFinset := by
    intro x hx
    rw [List.mem_toFinset] at hx
    obtain ⟨i, hi, rfl⟩ := List.mem_map.1 hx
    rw [List.mem_range] at hi
    rw [List.mem_toFinset]
    exact hcon (i + 1) (by omega) (by omega)
  have hcard := Finset.card_le_card hsub
  rw [List.toFinset_card_of_nodup hnodup] at hcard
  have hle : fs.toFinset.card ≤ fs.length := fs.toFinset_card_le
  simp at hcard
  omega

/-- The probe loop finds the first free suffix at or after `num`, provided
one exists within its fuel. -/
theorem probeLoop_spec (fs : List String) (dir root : String) :
    ∀ fuel num,
      (∃ k, num ≤ k ∧ k < num + fuel + 1 ∧ backup_name dir root k ∉ fs) →
      ∃ k, num ≤ k ∧ probeLoop fs dir root fuel num = backup_name dir root k ∧
        backup_name dir root k ∉ fs ∧
        ∀ j, num ≤ j → j < k → backup_name dir root j ∈ fs := by
  intro fuel
  induction fuel with
  | zero =>
    intro num ⟨k, hk1, hk2, hk3⟩
    have : k = num := by omega
    subst this
    exact ⟨k, le_refl k, rfl, hk3, fun j h1 h2 => absurd (lt_of_le_of_lt h1 h2) (lt_irrefl k)⟩
  | succ fuel ih =>
    intro num ⟨k, hk1, hk2, hk3⟩
    rw [probeLoop]
    by_cases hmem : backup_name dir root num ∈ fs
    · rw [if_pos (show fs.contains (backup_name dir root num) = true by
        simpa using hmem)]
      have hkne : k ≠ num := fun he => hk3 (he.symm ▸ hmem)
      obtain ⟨k', h1, h2, h3, h4⟩ := ih (num + 1) ⟨k, by omega, by omega, hk3⟩
      refine ⟨k', by omega, h2, h3, ?_⟩
      intro j hj1 hj2
      rcases Nat.eq_or_lt_of_le hj1 with he | hlt
      · exact he ▸ hmem
      · exact h4 j hlt hj2
    · rw [if_neg (show ¬ fs.contains (backup_name dir root num) = true by
        simpa using hmem)]
      exact ⟨num, le_refl num, rfl, hmem,
        fun j h1 h2 => absurd (lt_of_le_of_lt h1 h2) (lt_irrefl num)⟩

/-- `custom_namer` returns the name with the first free suffix `k ≥ 1`:
every smaller suffix names an existing file and the result names no
existing file. -/
theorem custom_namer_spec (fs : List String) (default_name : String) :
    ∃ k, 1 ≤ k ∧
      custom_namer fs default_name =
        backup_name (namer_dir default_name) (namer_root default_name) k ∧
      backup_name (namer_dir default_name) (namer_root default_name) k ∉ fs ∧
      ∀ j, 1 ≤ j → j < k →
        backup_name (namer_dir default_name) (namer_root default_name) j ∈ fs := by
  obtain ⟨k, hk1, hk2, hk3⟩ :=
    exists_fresh_suffix fs (namer_dir default_name) (namer_root default_name)
  exact probeLoop_spec fs _ _ (fs.length + 1) 1 ⟨k, hk1, by omega, hk3⟩

/-- The name `custom_namer` returns never collides with an existing file. -/
theorem custom_namer_not_mem (fs : List String) (default_name : String) :
    custom_namer fs default_name ∉ fs := by
  obtain ⟨k, _, heq, hnm, _⟩ := custom_namer_spec fs default_name
  rw [heq]
  exact hnm

end NamerLemmas

section ClaimC5

open GLog

/-- Every rotation records its fresh name into the directory before the
next probe, and no generated name collides with anything. -/
theorem genBackups_spec (default_name : String) :
    ∀ (N : Nat) (fs : List String),
      (genBackups fs default_name N).Nodup ∧
        ∀ nm ∈ genBackups fs default_name N, nm ∉ fs := by
  intro N
  induction N with
  | zero => intro fs; exact ⟨List.nodup_nil, by simp [genBackups]⟩
  | succ n ih =>
    intro fs
    rw [genBackups]
    obtain ⟨hnd, hmem⟩ := ih (custom_namer fs default_name :: fs)
    constructor
    · exact List.nodup_cons.2
        ⟨fun hc => hmem _ hc (List.mem_cons_self _ _), hnd⟩
    · intro x hx
      rcases List.mem_cons.1 hx with rfl | hx'
      · exact custom_namer_not_mem fs default_name
      · exact fun hxfs => hmem x hx' (List.mem_cons_of_mem _ hxfs)

/-- C5: `custom_namer` probes suffixes `1, 2, 3, …` of the base name and
returns the name with the first suffix that names no existing file, so
the returned name differs from every file existing at that moment and no
existing backup is ever overwritten; and `N` consecutive rotations (each
adding the name it was given to the directory) produce `N` pairwise
distinct backup names, none of which existed beforehand. -/
theorem c5_namer_first_free_and_distinct (fs : List String)
    (default_name : String) :
    (∃ k, 1 ≤ k ∧
      custom_namer fs default_name =
        backup_name (namer_dir default_name) (namer_root default_name) k ∧
      backup_name (namer_dir default_name) (namer_root default_name) k ∉ fs ∧
      ∀ j, 1 ≤ j → j < k →
        backup_name (namer_dir default_name) (namer_root default_name) j ∈ fs) ∧
    ∀ N, (genBackups fs default_name N).Nodup ∧
      ∀ nm ∈ genBackups fs default_name N, nm ∉ fs :=
  ⟨custom_namer_spec fs default_name,
   fun N => genBackups_spec default_name N fs⟩

end ClaimC5

section ClaimC7

open GLog

/-- The backup-shifting loop of `doRollover` is inert under
`custom_namer`: the probed source name `sfn` never exists, so no shift
(and no deletion) ever fires. -/
theorem shiftStep_id (base : String) (fs : List String) (i : Nat) :
    shiftStep base fs i = fs := by
  unfold shiftStep
  rw [if_neg (show ¬ fs.contains
      (custom_namer fs (base ++ "." ++ natStr i)) = true by
    simpa using custom_namer_not_mem fs (base ++ "." ++ natStr i))]

theorem foldl_shiftStep (base : String) (l : List Nat) :
    ∀ fs : List String, l.foldl (shiftStep base) fs = fs := by
  induction l with
  | nil => intro fs; rfl
  | cons a tl ih => intro fs; rw [List.foldl_cons, shiftStep_id]; exact ih fs

/-- With `custom_namer` installed, one `doRollover` archives the live file
under a fresh name and deletes nothing. -/
theorem doRollover_spec (bc : Nat) (hbc : 0 < bc) (base : String)
    (fs : List String) :
    doRollover bc base fs =
      (fs.erase base) ++ [custom_namer fs (base ++ ".1"), base] := by
  have hdfn : fs.contains (custom_namer fs (base ++ ".1")) = false := by
    have := custom_namer_not_mem fs (base ++ ".1")
    simpa using this
  simp only [doRollover, if_pos hbc, foldl_shiftStep, hdfn,
    Bool.false_eq_true, if_false]

theorem doRollover_invariant (bc : Nat) (hbc : 0 < bc) (base : String)
    (fs : List String) (hmem : base ∈ fs) (hnd : fs.Nodup) :
    (doRollover bc base fs).length = fs.length + 1 ∧
      (doRollover bc base fs).Nodup ∧ base ∈ doRollover bc base fs := by
  rw [doRollover_spec bc hbc]
  have hdfn : custom_namer fs (base ++ ".1") ∉ fs :=
    custom_namer_not_mem fs (base ++ ".1")
  refine ⟨?_, ?_, by simp⟩
  · rw [List.length_append, List.length_erase_of_mem hmem]
    have hpos : 0 < fs.length := List.length_pos.2 (List.ne_nil_of_mem hmem)
    simp
    omega
  · apply List.Nodup.append (hnd.erase base)
    · simp only [List.nodup_cons, List.mem_singleton, List.nodup_nil]
      refine ⟨?_, by simp⟩
      intro h
      exact hdfn (by rw [h]; exact hmem)
    · intro x hx
      have hxne : x ≠ base ∧ x ∈ fs := (List.Nodup.mem_erase_iff hnd).1 hx
      simp only [List.mem_cons, List.not_mem_nil, or_false]
      rintro (rfl | rfl)
      · exact hdfn hxne.2
      · exact hxne.1 rfl

theorem rollovers_growth (bc : Nat) (hbc : 0 < bc) (base : String) :
    ∀ (N : Nat) (fs : List String), base ∈ fs → fs.Nodup →
      (rollovers bc base fs N).length = fs.length + N ∧
        (rollovers bc base fs N).Nodup ∧ base ∈ rollovers bc base fs N := by
  intro N
  induction N with
  | zero => intro fs h1 h2; exact ⟨by simp [rollovers], h2, h1⟩
  | succ n ih =>
    intro fs h1 h2
    rw [rollovers]
    obtain ⟨hl, hn, hm⟩ := doRollover_invariant bc hbc base fs h1 h2
    obtain ⟨ihl, ihn, ihm⟩ := ih (doRollover bc base fs) hm hn
    exact ⟨by rw [ihl, hl]; omega, ihn, ihm⟩

/-- C7 (amended): `custom_namer` ignores the `name.N` shifting scheme that
`RotatingFileHandler.doRollover`'s pruning relies on — the probed shift
sources never exist and the computed `dfn` never exists, so nothing is
ever renamed over or removed.  Consequently, for a sink starting from
just its live base file, after `total_rotations` rotations exactly
`total_rotations` pairwise distinct backups exist (the directory holds
them plus the live base file), for every configured `backup_count > 0` —
the backup count never bounds the set. -/
theorem c7_pruning_never_fires (bc : Nat) (hbc : 0 < bc) (base : String)
    (N : Nat) :
    (rollovers bc base [base] N).length = N + 1 ∧
      (rollovers bc base [base] N).Nodup ∧
      base ∈ rollovers bc base [base] N := by
  obtain ⟨h1, h2, h3⟩ := rollovers_growth bc hbc base N [base]
    (List.mem_singleton_self base) (List.nodup_singleton base)
  refine ⟨?_, h2, h3⟩
  rw [h1]
  simp [Nat.add_comm]

/-- Witness for C7's amended statement at the source's `backupCount=50`. -/
theorem c7_pruning_never_fires_witness :
    (rollovers 50 "Debug.txt" ["Debug.txt"] 3).length = 4 ∧
      (rollovers 50 "Debug.txt" ["Debug.txt"] 3).Nodup ∧
      "Debug.txt" ∈ rollovers 50 "Debug.txt" ["Debug.txt"] 3 :=
  c7_pruning_never_fires 50 (by decide) "Debug.txt" 3

/-- C7 counterexample: with `backup_count = 1`, two rotations leave two
backups (`Debug1.txt`, `Debug2.txt`) next to the live file, not
`min(total_rotations, backup_count) = 1` — pruning never happened and no
oldest backup was discarded. -/
theorem c7_min_backup_count_counterexample :
    rollovers 1 "Debug.txt" ["Debug.txt"] 2 =
      ["Debug1.txt", "Debug2.txt", "Debug.txt"] ∧
    ¬ ((rollovers 1 "Debug.txt" ["Debug.txt"] 2).length - 1 = min 2 1) := by
  constructor <;> decide

end ClaimC7

section ClaimC6

open GlogPkg

/-- The day-triples contributed by one year directory. -/
def yearTriples (y : YearDir) : List (String × String × String) :=
  y.months.flatMap fun m => m.days.map fun d => (y.name, m.name, d)

/-- Day triples of an optional (possibly deleted) month directory. -/
def optMonthTriples (yn : String) (om : Option MonthDir) :
    List (String × String × String) :=
  om.elim [] (fun m' => m'.days.map fun d => (yn, m'.name, d))

/-- Day triples of an optional (possibly deleted) year directory. -/
def optYearTriples (oy : Option YearDir) : List (String × String × String) :=
  oy.elim [] yearTriples

theorem flatMap_congr_fn {α β : Type} (f g : α → List β) :
    ∀ l : List α, (∀ x ∈ l, f x = g x) → l.flatMap f = l.flatMap g := by
  intro l
  induction l with
  | nil => intro _; rfl
  | cons a tl ih =>
    intro h
    simp only [List.flatMap_cons]
    rw [h a (List.mem_cons_self a tl), ih (fun x hx => h x (List.mem_cons_of_mem a hx))]

theorem flatMap_filterMap_elim {α β γ : Type} (g : α → Option β) (f : β → List γ) :
    ∀ l : List α, (l.filterMap g).flatMap f =
      l.flatMap (fun x => (g x).elim [] f) := by
  intro l
  induction l with
  | nil => rfl
  | cons a tl ih =>
    cases hg : g a <;>
      simp [List.filterMap_cons, hg, ih, Option.elim]

theorem filter_flatMap_fn {α β : Type} (p : β → Bool) (f : α → List β) :
    ∀ l : List α, (l.flatMap f).filter p = l.flatMap (fun x => (f x).filter p) := by
  intro l
  induction l with
  | nil => rfl
  | cons a tl ih => simp [List.flatMap_cons, List.filter_append, ih]

/-- A year name failing `isdigit()` cannot parse as `%Y`. -/
theorem parseYear_none_of_not_digits (s : String) (h : isdigitStr s = false) :
    parseYear s = none := by
  rcases hs : s.data with _ | ⟨a, _ | ⟨b, _ | ⟨c, _ | ⟨d, _ | ⟨e, tl⟩⟩⟩⟩⟩
  case cons.cons.cons.cons.nil =>
    simp only [parseYear, hs]
    by_cases hall :
        (isDigitCh a && isDigitCh b && isDigitCh c && isDigitCh d) = true
    · exfalso
      unfold isdigitStr at h
      rw [hs] at h
      simp only [Bool.and_eq_true] at hall
      simp at h
      simp_all
    · simp [hall]
  all_goals simp [parseYear, hs]

theorem shouldDelete_false_of_not_digits (cutoff : Nat) (yS mS dS : String)
    (h : isdigitStr yS = false) : shouldDelete cutoff yS mS dS = false := by
  unfold shouldDelete strptime_Y_B_d
  rw [parseYear_none_of_not_digits yS h]

/-- The sweep of one month directory keeps exactly the non-deleted days. -/
theorem cleanupMonth_triples (cutoff : Nat) (yn : String) (m : MonthDir) :
    optMonthTriples yn (cleanupMonth cutoff yn m) =
      (m.days.map (fun d => (yn, m.name, d))).filter
        (fun t => !(shouldDelete cutoff t.1 t.2.1 t.2.2)) := by
  rw [List.filter_map]
  simp only [cleanupMonth]
  split_ifs with hcond
  · have hnil : m.days.filter
        (fun d => !(shouldDelete cutoff yn m.name d)) = [] := by
      simp only [Bool.and_eq_true] at hcond
      exact List.isEmpty_iff.1 hcond.2
    show ([] : List (String × String × String)) = _
    rw [show ((fun t : String × String × String =>
        !(shouldDelete cutoff t.1 t.2.1 t.2.2)) ∘
        (fun d => (yn, m.name, d))) = fun d => !(shouldDelete cutoff yn m.name d)
      from rfl, hnil]
    rfl
  · rfl

/-- The sweep of one year directory keeps exactly the non-deleted days. -/
theorem cleanupYear_triples (cutoff : Nat) (y : YearDir) :
    optYearTriples (cleanupYear cutoff y) =
      (yearTriples y).filter (fun t => !(shouldDelete cutoff t.1 t.2.1 t.2.2)) := by
  simp only [cleanupYear]
  split_ifs with hdig hrem
  · -- unparsable year name: subtree untouched, and no day in it is deletable
    show yearTriples y = _
    rw [eq_comm, List.filter_eq_self]
    intro t ht
    obtain ⟨m, _, ht'⟩ := List.mem_flatMap.1 ht
    obtain ⟨d, _, rfl⟩ := List.mem_map.1 ht'
    have hfalse : isdigitStr y.name = false := by
      revert hdig
      cases isdigitStr y.name <;> simp
    simp [shouldDelete_false_of_not_digits cutoff y.name m.name d hfalse]
  · -- every month deleted, year directory removed
    show ([] : List (String × String × String)) = _
    have hfm : y.months.filterMap (cleanupMonth cutoff y.name) = [] := by
      simp only [Bool.and_eq_true] at hrem
      exact List.isEmpty_iff.1 hrem.2
    have hall : ∀ m ∈ y.months, cleanupMonth cutoff y.name m = none := by
      intro m hm
      cases hc : cleanupMonth cutoff y.name m with
      | none => rfl
      | some m' =>
        exfalso
        have hmm : m' ∈ y.months.filterMap (cleanupMonth cutoff y.name) :=
          List.mem_filterMap.2 ⟨m, hm, hc⟩
        rw [hfm] at hmm
        exact List.not_mem_nil m' hmm
    symm
    rw [show yearTriples y =
        y.months.flatMap (fun m => m.days.map fun d => (y.name, m.name, d))
      from rfl, filter_flatMap_fn]
    apply List.flatMap_eq_nil_iff.2
    intro m hm
    have hmt := cleanupMonth_triples cutoff y.name m
    rw [hall m hm] at hmt
    exact hmt.symm
  · -- year survives with the surviving months
    show yearTriples ⟨y.name, y.months.filterMap (cleanupMonth cutoff y.name)⟩ = _
    rw [show yearTriples
          ⟨y.name, y.months.filterMap (cleanupMonth cutoff y.name)⟩ =
        (y.months.filterMap (cleanupMonth cutoff y.name)).flatMap
          (fun m' => m'.days.map fun d => (y.name, m'.name, d)) from rfl]
    rw [flatMap_filterMap_elim]
    rw [show yearTriples y =
        y.months.flatMap (fun m => m.days.map fun d => (y.name, m.name, d))
      from rfl, filter_flatMap_fn]
    apply flatMap_congr_fn
    intro m _
    exact cleanupMonth_triples cutoff y.name m

/-- C6: the retention sweep removes a partition directory if and only if
its `year/month/day` names parse (via `%Y-%B-%d`, including calendar
validity) to a date strictly older than `today − retention_days`:
the surviving day directories are exactly those not satisfying
`shouldDelete`, and `shouldDelete` holds precisely on parsable,
strictly-older dates — so in-window directories are untouched and
unparsable names are never deleted. -/
theorem c6_retention_sweep_exact (todayOrd retention : Nat)
    (years : List YearDir) :
    dayTriples (cleanup_old_logs todayOrd retention years) =
      (dayTriples years).filter
        (fun t => !(shouldDelete (todayOrd - retention) t.1 t.2.1 t.2.2)) ∧
    ∀ yS mS dS, shouldDelete (todayOrd - retention) yS mS dS = true ↔
      ∃ dirOrd, strptime_Y_B_d yS mS dS = some dirOrd ∧
        dirOrd < todayOrd - retention := by
  constructor
  · have h1 : dayTriples (cleanup_old_logs todayOrd retention years) =
        (years.filterMap (cleanupYear (todayOrd - retention))).flatMap
          yearTriples := rfl
    have h2 : dayTriples years = years.flatMap yearTriples := rfl
    rw [h1, h2, flatMap_filterMap_elim, filter_flatMap_fn]
    apply flatMap_congr_fn
    intro y _
    exact cleanupYear_triples (todayOrd - retention) y
  · intro yS mS dS
    unfold shouldDelete
    cases h : strptime_Y_B_d yS mS dS <;> simp [h]

end ClaimC6
